import Mathlib

/-!
Shallow embedding of the pixeltree generation core (headers under
include/pixeltree/core plus the TreeGenerator / TreeRenderer translation
units), together with theorems settling the specification claims.

Modelling conventions, applied uniformly:
* C++ `float` arithmetic is embedded as exact rational arithmetic (`Rat`).
  IEEE rounding is not modelled; every fact proved below is either an
  equality between two runs of the same computation, a counting fact, or a
  comparison that is not decided by a rounding ulp.
* Transcendental float functions (`std::cos`, `std::sin` composed with the
  degree-to-radian conversion of `rotate_vector`) are embedded as oracle
  parameters (`Env.cosDeg`, `Env.sinDeg`); no claim depends on their values.
* `std::mt19937` composed with the standard distributions is embedded as an
  oracle stream of rational draws indexed by seed and position
  (`Env.seedFn`); the standard leaves the distribution algorithms
  implementation-defined, so draws are not bit-modelled.  `std::random_device`
  is a stream of naturals carried in the generator state (`GenState.deviceFn`).
* `size_t` / `int` become `Nat` / `Int`; `uint8_t` casts of values already
  clamped into [0,255] become integer truncation; `uint32_t` pixels become
  `Nat` manipulated with the same shifts and masks as the source.
* The `shared_ptr` branch graph is embedded arena-style: branches live in the
  `all_branches` list and `parent` / `children` hold indices into it, exactly
  mirroring which links the source creates.
-/

set_option allowUnsafeReducibility true

attribute [local semireducible] Rat.mul Rat.add Rat.sub Rat.inv Rat.ofScientific

namespace PixelTree

/-- Clamp a rational into [lo, hi], mirroring std::clamp used by BoundedValue. -/
def clampQ (lo hi v : ℚ) : ℚ := max lo (min hi v)

/-- Clamp an integer into [lo, hi], mirroring std::clamp used by BoundedValue. -/
def clampZ (lo hi v : ℤ) : ℤ := max lo (min hi v)

/-- Point2D from math_types.hpp, over an arbitrary scalar type. -/
structure Point2D (α : Type) where
  x : α
  y : α
deriving DecidableEq

/-- Point2Df: float points, embedded over the rationals. -/
abbrev Point2Df := Point2D ℚ

/-- Point2Di: integer points. -/
abbrev Point2Di := Point2D ℤ

/-- Componentwise vector sum (Point2D::operator+). -/
def Point2D.add (p q : Point2Df) : Point2Df := ⟨p.x + q.x, p.y + q.y⟩

/-- Componentwise vector difference (Point2D::operator-). -/
def Point2D.sub (p q : Point2Df) : Point2Df := ⟨p.x - q.x, p.y - q.y⟩

/-- Scalar multiple (Point2D::operator*). -/
def Point2D.scale (p : Point2Df) (s : ℚ) : Point2Df := ⟨p.x * s, p.y * s⟩

/-- Rect2D from math_types.hpp: axis-aligned rectangle with min and max corner. -/
structure Rect2D where
  min : Point2Df
  max : Point2Df
deriving DecidableEq

/-- Color from math_types.hpp: four 8-bit channels, embedded as naturals. -/
structure Color where
  r : ℕ
  g : ℕ
  b : ℕ
  a : ℕ
deriving DecidableEq

/-- Color with alpha defaulted to 255, mirroring the three-argument constructor. -/
def Color.mk3 (r g b : ℕ) : Color := ⟨r, g, b, 255⟩

/-- Color::to_rgba: pack the four channels into one 32-bit value. -/
def Color.to_rgba (c : Color) : ℕ :=
  (c.r <<< 24) ||| (c.g <<< 16) ||| (c.b <<< 8) ||| c.a

/-- TreeType enumeration from tree_parameters.hpp. -/
inductive TreeType where
  | Oak | Pine | Palm | Birch | Willow | Dead | Custom
deriving DecidableEq

/-- GrowthStage enumeration from tree_parameters.hpp. -/
inductive GrowthStage where
  | Seed | Sapling | Young | Mature | Old | Dead
deriving DecidableEq

/-- Numeric value of a GrowthStage, as in static_cast to float. -/
def GrowthStage.val : GrowthStage → ℕ
  | .Seed => 0 | .Sapling => 1 | .Young => 2 | .Mature => 3 | .Old => 4 | .Dead => 5

/-- Season enumeration from tree_parameters.hpp. -/
inductive Season where
  | Spring | Summer | Autumn | Winter
deriving DecidableEq

/-- BranchParameters from tree_parameters.hpp.  BoundedValue wrappers are
embedded as plain scalars; every write in the embedding goes through the same
clamp that BoundedValue applies on assignment. -/
structure BranchParameters where
  base_thickness : ℚ := 2
  thickness_decay : ℚ := 8/10
  branch_probability : ℚ := 7/10
  branch_angle_variation : ℚ := 3/10
  max_depth : ℤ := 5
  max_branches : ℤ := 32
  curvature : ℚ := 1/10
  asymmetry : ℚ := 2/10
deriving DecidableEq

/-- LeafParameters from tree_parameters.hpp. -/
structure LeafParameters where
  density : ℚ := 8/10
  size_base : ℚ := 3
  size_variation : ℚ := 3/10
  color_variation : ℚ := 2/10
  base_colors : List Color :=
    [Color.mk3 34 139 34, Color.mk3 50 205 50, Color.mk3 107 142 35, Color.mk3 85 107 47]
  alpha_variation : ℚ := 1/10
deriving DecidableEq

/-- TrunkParameters from tree_parameters.hpp. -/
structure TrunkParameters where
  base_color : Color := Color.mk3 101 67 33
  color_variation : ℚ := 15/100
  texture_noise : ℚ := 1/10
  bark_detail : ℚ := 0
deriving DecidableEq

/-- TreeParameters from tree_parameters.hpp, with the member-initializer
defaults (all of which already lie inside their declared bounds). -/
structure TreeParameters where
  type : TreeType := .Oak
  growth_stage : GrowthStage := .Mature
  season : Season := .Summer
  canvas_width : ℤ := 128
  canvas_height : ℤ := 128
  overall_scale : ℚ := 1
  branches : BranchParameters := {}
  leaves : LeafParameters := {}
  trunk : TrunkParameters := {}
  wind_direction : ℚ := 0
  wind_strength : ℚ := 0
  age_factor : ℚ := 1/2
  random_seed : ℕ := 0
  determinism : ℚ := 8/10
deriving DecidableEq

/-- TreeParameters::validate, the per-type / stage / season normalization.
Every assignment is routed through the clamp of the BoundedValue it targets. -/
def validateParams (p : TreeParameters) : TreeParameters :=
  let p :=
    match p.type with
    | .Pine =>
        let br := { p.branches with branch_angle_variation := clampQ 0 1 (min p.branches.branch_angle_variation (2/10)) }
        let lv := { p.leaves with density := clampQ 0 1 (min p.leaves.density (6/10)) }
        { p with branches := br, leaves := lv }
    | .Palm =>
        let br := { p.branches with max_depth := clampZ 1 10 (min p.branches.max_depth 3), curvature := clampQ 0 1 (max p.branches.curvature (3/10)) }
        { p with branches := br }
    | .Willow =>
        let br := { p.branches with curvature := clampQ 0 1 (max p.branches.curvature (4/10)) }
        { p with branches := br }
    | .Dead =>
        let lv := { p.leaves with density := clampQ 0 1 0 }
        let tr := { p.trunk with color_variation := clampQ 0 1 (max p.trunk.color_variation (3/10)) }
        { p with leaves := lv, trunk := tr }
    | _ => p
  let growth_factor : ℚ := (p.growth_stage.val : ℚ) / (GrowthStage.Mature.val : ℚ)
  let p := { p with overall_scale := clampQ (1/10) 10 (p.overall_scale * (2/10 + 8/10 * growth_factor)) }
  match p.season with
  | .Autumn =>
      let lv := { p.leaves with base_colors := [Color.mk3 255 140 0, Color.mk3 255 165 0, Color.mk3 255 69 0, Color.mk3 139 69 19] }
      { p with leaves := lv }
  | .Winter =>
      let lv := { p.leaves with density := clampQ 0 1 (p.leaves.density * (3/10)) }
      { p with leaves := lv }
  | _ => p

/-- TreePresets::oak. -/
def TreePresets.oak : TreeParameters :=
  { type := .Oak,
    branches := { branch_probability := clampQ 0 1 (8/10), max_depth := clampZ 1 10 5,
                  curvature := clampQ 0 1 (15/100) },
    leaves := { density := clampQ 0 1 (9/10), size_base := clampQ (1/10) 10 4 } }

/-- TreePresets::pine. -/
def TreePresets.pine : TreeParameters :=
  { type := .Pine,
    branches := { branch_probability := clampQ 0 1 (6/10),
                  branch_angle_variation := clampQ 0 1 (15/100), max_depth := clampZ 1 10 6 },
    leaves := { density := clampQ 0 1 (7/10),
                base_colors := [Color.mk3 34 139 34, Color.mk3 0 100 0,
                                Color.mk3 46 125 50, Color.mk3 27 94 32] } }

/-- TreePresets::palm. -/
def TreePresets.palm : TreeParameters :=
  { type := .Palm,
    branches := { max_depth := clampZ 1 10 2, curvature := clampQ 0 1 (4/10),
                  base_thickness := clampQ (1/10) 10 (15/10) },
    leaves := { density := clampQ 0 1 (4/10), size_base := clampQ (1/10) 10 8 } }

/-- TreePresets::dead. -/
def TreePresets.dead : TreeParameters :=
  { type := .Dead,
    branches := { branch_probability := clampQ 0 1 (5/10) },
    leaves := { density := clampQ 0 1 0 },
    trunk := { base_color := Color.mk3 101 67 33, color_variation := clampQ 0 1 (4/10) } }

/-- Oracle environment: the deterministic but implementation-defined numeric
kernels of the program.  seedFn models mt19937 seeded construction composed
with uniform_real_distribution (seed, draw index, value in [0,1)); cosDeg and
sinDeg model rotate_vector trigonometry taking the angle in degrees. -/
structure Env where
  seedFn : ℕ → ℕ → ℚ
  cosDeg : ℚ → ℚ
  sinDeg : ℚ → ℚ

/-- Random from random.hpp: a seeded stream with a cursor.  fn is the stream
of next_float draws, pos the number of draws consumed so far. -/
structure RandomGen where
  fn : ℕ → ℚ
  pos : ℕ

/-- Random::Random(seed): position zero of the stream the seed denotes. -/
def RandomGen.ofSeed (env : Env) (seed : ℕ) : RandomGen := ⟨env.seedFn seed, 0⟩

/-- Random::next_float(): one uniform draw in [0,1). -/
def RandomGen.next_float (g : RandomGen) : ℚ × RandomGen :=
  (g.fn g.pos, ⟨g.fn, g.pos + 1⟩)

/-- Random::next_float(min, max): min + next_float() * (max - min). -/
def RandomGen.next_float_range (g : RandomGen) (lo hi : ℚ) : ℚ × RandomGen :=
  let (u, g') := g.next_float
  (lo + u * (hi - lo), g')

/-- Random::next_int(min, max): one draw mapped to an integer in [min, max].
The standard leaves the algorithm of uniform_int_distribution open; the
embedding maps one draw u to min + floor(u * (max - min + 1)). -/
def RandomGen.next_int (g : RandomGen) (lo hi : ℤ) : ℤ × RandomGen :=
  let (u, g') := g.next_float
  (lo + ⌊u * ((hi : ℚ) - (lo : ℚ) + 1)⌋, g')

/-- GrowthRule from lsystem.hpp. -/
structure GrowthRule where
  length_factor : ℚ := 1
  thickness_factor : ℚ := 1
  angle_change : ℚ := 0
deriving DecidableEq

/-- SplitRule from lsystem.hpp. -/
structure SplitRule where
  branch_count : ℤ := 2
  angle_spread : ℚ := 45
  thickness_split : ℚ := 7/10
deriving DecidableEq

/-- TerminateRule from lsystem.hpp. -/
structure TerminateRule where
  probability : ℚ := 1
deriving DecidableEq

/-- LSystemRule: the std::variant of the three rule kinds. -/
inductive LSystemRule where
  | grow (r : GrowthRule)
  | split (r : SplitRule)
  | term (r : TerminateRule)
deriving DecidableEq

/-- LSystemGenerator::setup_rules: the per-type rule table.  The generation
functions below never read this table (the source hardcodes the rewrite), but
it is part of the generator state. -/
def setup_rules (t : TreeType) : List (Char × LSystemRule) :=
  match t with
  | .Oak =>
      [('F', .grow ⟨1, 9/10, 0⟩), ('[', .split ⟨2, 35, 7/10⟩), (']', .term ⟨1/10⟩)]
  | .Pine =>
      [('F', .grow ⟨12/10, 8/10, 0⟩), ('[', .split ⟨3, 25, 6/10⟩), (']', .term ⟨2/10⟩)]
  | .Palm =>
      [('F', .grow ⟨15/10, 9/10, 10⟩), ('[', .split ⟨5, 60, 8/10⟩), (']', .term ⟨8/10⟩)]
  | _ =>
      [('F', .grow ⟨1, 9/10, 0⟩), ('[', .split ⟨2, 30, 7/10⟩), (']', .term ⟨1/10⟩)]

/-- The branching pattern appended after a grow symbol in generate_string. -/
def branchPattern : List Char := ['[', '+', 'F', ']', '[', '-', 'F', ']']

/-- One character of the per-iteration rewrite pass of generate_string: a grow
symbol is copied and, with probability branch_probability, followed by the
branching pattern (the draw is consumed for every grow symbol); every other
symbol is copied unchanged. -/
def rewriteStep (p : TreeParameters) (acc : List Char × RandomGen) (c : Char) :
    List Char × RandomGen :=
  if c = 'F' then
    let d := acc.2.next_float
    (acc.1 ++ ['F'] ++ (if d.1 < p.branches.branch_probability then branchPattern else []), d.2)
  else
    (acc.1 ++ [c], acc.2)

/-- One full left-to-right rewrite pass over the current string. -/
def rewriteOnce (p : TreeParameters) (s : List Char) (g : RandomGen) :
    List Char × RandomGen :=
  s.foldl (rewriteStep p) ([], g)

/-- Iterate the rewrite pass a fixed number of times. -/
def iterRewrite (p : TreeParameters) (acc : List Char × RandomGen) :
    ℕ → List Char × RandomGen
  | 0 => acc
  | n + 1 => iterRewrite p (rewriteOnce p acc.1 acc.2) n

/-- LSystemGenerator::generate_string: start from "F" and rewrite for
max_depth iterations. -/
def generate_string (p : TreeParameters) (g : RandomGen) : List Char × RandomGen :=
  iterRewrite p (['F'], g) p.branches.max_depth.toNat

/-- LSystemState from lsystem.hpp: the turtle interpreter state. -/
structure LSystemState where
  position : Point2Df
  direction : Point2Df
  thickness : ℚ
  depth : ℤ
  color : Color
deriving DecidableEq

/-- Branch from tree_structure.hpp, arena-style: parent and children are
indices into TreeStructure.all_branches. -/
structure Branch where
  parent : Option ℕ := none
  children : List ℕ := []
  start_point : Point2Df
  end_point : Point2Df
  thickness : ℚ
  curvature : ℚ := 0
  color : Color := Color.mk3 101 67 33
  depth_level : ℤ
  generation_id : ℕ := 0
  growth_factor : ℚ := 1
deriving DecidableEq

/-- A placeholder branch for list lookups (never produced by generation). -/
def dummyBranch : Branch :=
  { start_point := ⟨0, 0⟩, end_point := ⟨0, 0⟩, thickness := 0, depth_level := 0 }

/-- LeafCluster shape tag from tree_structure.hpp. -/
inductive LeafShape where
  | Circle | Ellipse | Spiky | Scattered
deriving DecidableEq

/-- LeafCluster from tree_structure.hpp (the individual leaf-position list is
never populated on the generation path and is omitted). -/
structure LeafCluster where
  position : Point2Df
  size : ℚ
  color : Color
  shape : LeafShape := .Circle
deriving DecidableEq

/-- TreeStructure from tree_structure.hpp, arena-style. -/
structure TreeStructure where
  root : Option ℕ := none
  all_branches : List Branch := []
  leaf_clusters : List LeafCluster := []
  parameters : TreeParameters
  bounding_box : Rect2D := ⟨⟨0, 0⟩, ⟨0, 0⟩⟩
  generation_id : ℕ := 0

/-- rotate_vector from lsystem.hpp: rotate by an angle given in degrees.  The
degree-to-radian conversion and cos/sin are folded into the oracle. -/
def rotate_vector (env : Env) (v : Point2Df) (angle_degrees : ℚ) : Point2Df :=
  let c := env.cosDeg angle_degrees
  let s := env.sinDeg angle_degrees
  ⟨v.x * c - v.y * s, v.x * s + v.y * c⟩

/-- Mutable state of the string_to_tree interpreter loop. -/
structure BuildState where
  current : LSystemState
  stack : List LSystemState
  currentBranch : Option ℕ
  root : Option ℕ
  branches : List Branch
  rng : RandomGen

/-- One symbol of the string_to_tree switch, before the per-symbol decay. -/
def applySymbol (env : Env) (p : TreeParameters) (st : BuildState) (c : Char) :
    BuildState :=
  if c = 'F' then
    let branch_length : ℚ := 15 * p.overall_scale
    let end_pos := st.current.position.add (st.current.direction.scale branch_length)
    let idx := st.branches.length
    let b : Branch :=
      { start_point := st.current.position, end_point := end_pos,
        thickness := st.current.thickness, depth_level := st.current.depth,
        color := st.current.color }
    let cur' := { st.current with position := end_pos }
    if st.root.isNone then
      { st with root := some idx, branches := st.branches ++ [b], currentBranch := some idx, current := cur' }
    else
      match st.currentBranch with
      | some j =>
          let branches' := st.branches.set j
            (let pb := st.branches.getD j dummyBranch
             { pb with children := pb.children ++ [idx] })
          { st with branches := branches' ++ [{ b with parent := some j }], currentBranch := some idx, current := cur' }
      | none =>
          { st with branches := st.branches ++ [b], currentBranch := some idx, current := cur' }
  else if c = '[' then
    { st with stack := st.stack ++ [st.current] }
  else if c = ']' then
    match st.stack.getLast? with
    | some s => { st with current := s, stack := st.stack.dropLast }
    | none => st
  else if c = '+' then
    let d := st.rng.next_float_range (-45) 45
    let angle := d.1 * p.branches.branch_angle_variation
    let cur' := { st.current with direction := rotate_vector env st.current.direction angle }
    { st with current := cur', rng := d.2 }
  else if c = '-' then
    let d := st.rng.next_float_range (-45) 45
    let angle := d.1 * p.branches.branch_angle_variation
    let cur' := { st.current with direction := rotate_vector env st.current.direction (-angle) }
    { st with current := cur', rng := d.2 }
  else
    st

/-- The unconditional per-symbol decay applied after the symbol switch:
thickness is multiplied by the decay factor and depth is incremented. -/
def decayState (p : TreeParameters) (st : BuildState) : BuildState :=
  { st with current := { st.current with
      thickness := st.current.thickness * p.branches.thickness_decay,
      depth := st.current.depth + 1 } }

/-- One full iteration of the string_to_tree loop: the symbol switch followed
by the unconditional per-symbol thickness decay and depth increment. -/
def buildStep (env : Env) (p : TreeParameters) (st : BuildState) (c : Char) :
    BuildState :=
  decayState p (applySymbol env p st c)

/-- LSystemGenerator::string_to_tree: interpret the symbol string with the
stack-based turtle, producing the branch arena. -/
def string_to_tree (env : Env) (lstring : List Char) (p : TreeParameters)
    (g : RandomGen) : TreeStructure × RandomGen :=
  let start_pos : Point2Df := ⟨(p.canvas_width : ℚ) * (1/2), (p.canvas_height : ℚ) * (9/10)⟩
  let start_dir : Point2Df := ⟨0, -1⟩
  let st0 : BuildState :=
    { current := { position := start_pos, direction := start_dir,
                   thickness := p.branches.base_thickness, depth := 0,
                   color := p.trunk.base_color },
      stack := [], currentBranch := none, root := none, branches := [], rng := g }
  let st := lstring.foldl (buildStep env p) st0
  ({ root := st.root, all_branches := st.branches, leaf_clusters := [],
     parameters := p }, st.rng)

/-- Branch::get_leaf_branches, arena-style: walk the children lists from a
branch index and collect the indices of childless branches.  The walk in the
source recurses through the pointer graph; the embedding bounds the recursion
by a fuel that generation-built trees never exhaust (every child index is
created after its parent, so the recursion depth is at most the arena size). -/
def leafIndicesAux (branches : List Branch) : ℕ → ℕ → List ℕ
  | 0, _ => []
  | fuel + 1, i =>
    let b := branches.getD i dummyBranch
    if b.children.isEmpty then [i]
    else (b.children.map (leafIndicesAux branches fuel)).flatten

/-- TreeStructure::get_leaf_branches: indices of the childless branches
reachable from the root. -/
def get_leaf_branches (t : TreeStructure) : List ℕ :=
  match t.root with
  | none => []
  | some r => leafIndicesAux t.all_branches (t.all_branches.length + 1) r

/-- Map a tree type to the leaf-cluster shape, as in generate_leaf_clusters. -/
def shapeForType (t : TreeType) : LeafShape :=
  match t with
  | .Pine => .Spiky
  | .Palm => .Ellipse
  | .Willow => .Scattered
  | _ => .Circle

/-- Cast of a float already clamped into [0,255] to uint8_t: truncation. -/
def toU8 (q : ℚ) : ℕ := (Int.floor (clampQ 0 255 q)).toNat

/-- Per-leaf-branch body of TreeGenerator::generate_leaf_clusters: the
Bernoulli trial against the density and, on success, the size jitter, the
uniform base-color pick and the per-channel color jitter. -/
def leafClusterStep (t : TreeStructure) (acc : List LeafCluster × RandomGen)
    (idx : ℕ) : List LeafCluster × RandomGen :=
  let (clusters, g) := acc
  let lv := t.parameters.leaves
  let (u, g1) := g.next_float
  if u < lv.density then
    let branch := t.all_branches.getD idx dummyBranch
    let (su, g2) := g1.next_float_range (-lv.size_variation) lv.size_variation
    let cluster_size := lv.size_base * (1 + su)
    let (ci, g3) := g2.next_int 0 3
    let base_color := lv.base_colors.getD ci.toNat (Color.mk3 0 0 0)
    let (ur, g4) := g3.next_float_range (-lv.color_variation) lv.color_variation
    let (ug, g5) := g4.next_float_range (-lv.color_variation) lv.color_variation
    let (ub, g6) := g5.next_float_range (-lv.color_variation) lv.color_variation
    let leaf_color : Color :=
      { r := toU8 ((base_color.r : ℚ) * (1 + ur)),
        g := toU8 ((base_color.g : ℚ) * (1 + ug)),
        b := toU8 ((base_color.b : ℚ) * (1 + ub)),
        a := base_color.a }
    let cluster : LeafCluster :=
      { position := branch.end_point, size := cluster_size, color := leaf_color,
        shape := shapeForType t.parameters.type }
    (clusters ++ [cluster], g6)
  else
    (clusters, g1)

/-- TreeGenerator::generate_leaf_clusters: no clusters at all when the leaf
density is not positive; otherwise one Bernoulli trial per leaf branch. -/
def generate_leaf_clusters (t : TreeStructure) (g : RandomGen) :
    TreeStructure × RandomGen :=
  if t.parameters.leaves.density ≤ 0 then (t, g)
  else
    let r := (get_leaf_branches t).foldl (leafClusterStep t) ([], g)
    ({ t with leaf_clusters := t.leaf_clusters ++ r.1 }, r.2)

/-- Branch::bounding_box: start/end extrema expanded by half the thickness. -/
def branchBox (b : Branch) : Rect2D :=
  let half_thickness := b.thickness * (1/2)
  ⟨⟨min b.start_point.x b.end_point.x - half_thickness,
    min b.start_point.y b.end_point.y - half_thickness⟩,
   ⟨max b.start_point.x b.end_point.x + half_thickness,
    max b.start_point.y b.end_point.y + half_thickness⟩⟩

/-- LeafCluster::bounding_box: position expanded by the cluster size. -/
def clusterBox (c : LeafCluster) : Rect2D :=
  ⟨⟨c.position.x - c.size, c.position.y - c.size⟩,
   ⟨c.position.x + c.size, c.position.y + c.size⟩⟩

/-- Fold one rectangle into the accumulated extent. -/
def expandBox (acc box : Rect2D) : Rect2D :=
  ⟨⟨min acc.min.x box.min.x, min acc.min.y box.min.y⟩,
   ⟨max acc.max.x box.max.x, max acc.max.y box.max.y⟩⟩

/-- TreeStructure::calculate_bounding_box: degenerate box at the origin with
no branches, otherwise the fold over branch and cluster boxes. -/
def calculate_bounding_box (t : TreeStructure) : TreeStructure :=
  match t.all_branches with
  | [] => { t with bounding_box := ⟨⟨0, 0⟩, ⟨0, 0⟩⟩ }
  | b0 :: _ =>
    let box := (t.all_branches.map branchBox).foldl expandBox (branchBox b0)
    let box := (t.leaf_clusters.map clusterBox).foldl expandBox box
    { t with bounding_box := box }

/-- PixelBuffer from pixel_buffer.hpp: width, height and the flat row-major
pixel array (32-bit pixels embedded as naturals). -/
structure PixelBuffer where
  width : ℕ
  height : ℕ
  data : List ℕ
deriving DecidableEq

/-- PixelBuffer::PixelBuffer(width, height): zero-initialized pixels. -/
def PixelBuffer.mk0 (w h : ℕ) : PixelBuffer := ⟨w, h, List.replicate (w * h) 0⟩

/-- PixelBuffer::contains: signed coordinates strictly inside [0,w) x [0,h). -/
def PixelBuffer.contains (buf : PixelBuffer) (x y : ℤ) : Bool :=
  0 ≤ x && x < (buf.width : ℤ) && 0 ≤ y && y < (buf.height : ℤ)

/-- PixelBuffer::at, the checked accessor: out_of_range error exactly when a
coordinate reaches the corresponding dimension. -/
def PixelBuffer.at (buf : PixelBuffer) (x y : ℕ) : Except String ℕ :=
  if x ≥ buf.width ∨ y ≥ buf.height then
    .error "Pixel coordinates out of bounds"
  else
    .ok (buf.data.getD (y * buf.width + x) 0)

/-- The unchecked operator() read at nonnegative pre-validated coordinates. -/
def PixelBuffer.pixel (buf : PixelBuffer) (x y : ℤ) : ℕ :=
  buf.data.getD (y.toNat * buf.width + x.toNat) 0

/-- The unchecked operator() write at nonnegative pre-validated coordinates. -/
def PixelBuffer.setPix (buf : PixelBuffer) (x y : ℤ) (c : ℕ) : PixelBuffer :=
  { buf with data := buf.data.set (y.toNat * buf.width + x.toNat) c }

/-- PixelBuffer::blit: copy every source pixel whose translated destination
coordinate lies inside the destination. -/
def PixelBuffer.blit (dst src : PixelBuffer) (position : Point2Di) : PixelBuffer :=
  (List.range src.height).foldl (fun d (y : ℕ) =>
    (List.range src.width).foldl (fun d2 (x : ℕ) =>
      let dest_x := position.x + (x : ℤ)
      let dest_y := position.y + (y : ℤ)
      if d2.contains dest_x dest_y then
        d2.setPix dest_x dest_y (src.pixel (x : ℤ) (y : ℤ))
      else d2) d) dst

/-- PixelBuffer::blend_pixels: the over blend keyed on the low byte of the
foreground, with the result alpha forced to 255 on the blended path.  The
float channel math is embedded as exact rational arithmetic. -/
def blend_pixels (background foreground : ℕ) : ℕ :=
  let alpha := foreground &&& 0xFF
  if alpha = 0 then background
  else if alpha = 255 then foreground
  else
    let a : ℚ := (alpha : ℚ) / 255
    let inv_a : ℚ := 1 - a
    let bg_r := (background >>> 24) &&& 0xFF
    let bg_g := (background >>> 16) &&& 0xFF
    let bg_b := (background >>> 8) &&& 0xFF
    let fg_r := (foreground >>> 24) &&& 0xFF
    let fg_g := (foreground >>> 16) &&& 0xFF
    let fg_b := (foreground >>> 8) &&& 0xFF
    let result_r := toU8 ((bg_r : ℚ) * inv_a + (fg_r : ℚ) * a)
    let result_g := toU8 ((bg_g : ℚ) * inv_a + (fg_g : ℚ) * a)
    let result_b := toU8 ((bg_b : ℚ) * inv_a + (fg_b : ℚ) * a)
    (result_r <<< 24) ||| (result_g <<< 16) ||| (result_b <<< 8) ||| 255

/-- PixelBuffer::blit_with_alpha: like blit, but each copied pixel is blended
over the destination pixel. -/
def PixelBuffer.blit_with_alpha (dst src : PixelBuffer) (position : Point2Di) :
    PixelBuffer :=
  (List.range src.height).foldl (fun d (y : ℕ) =>
    (List.range src.width).foldl (fun d2 (x : ℕ) =>
      let dest_x := position.x + (x : ℤ)
      let dest_y := position.y + (y : ℤ)
      if d2.contains dest_x dest_y then
        d2.setPix dest_x dest_y
          (blend_pixels (d2.pixel dest_x dest_y) (src.pixel (x : ℤ) (y : ℤ)))
      else d2) d) dst

/-- std::round on a float value: round half away from zero. -/
def roundQ (q : ℚ) : ℤ := if q ≥ 0 then ⌊q + 1/2⌋ else ⌈q - 1/2⌉

/-- The inclusive integer interval [lo, hi] as a list. -/
def intRange (lo hi : ℤ) : List ℤ :=
  (List.range (hi + 1 - lo).toNat).map (fun k => lo + (k : ℤ))

/-- Loop state of TreeRenderer::draw_line. -/
structure LineState where
  buf : PixelBuffer
  x : ℤ
  y : ℤ
  err : ℤ

/-- Body of the Bresenham loop: plot the bounds-checked pixel, stop at the
endpoint, otherwise advance by the error-accumulation rule.  fuel bounds the
iteration count; dx + dy + 1 covers every terminating run of the source loop. -/
def drawLineAux (color : ℕ) (x1 y1 dx dy sx sy : ℤ) :
    ℕ → LineState → PixelBuffer
  | 0, st => st.buf
  | fuel + 1, st =>
    let buf := if st.buf.contains st.x st.y then st.buf.setPix st.x st.y color else st.buf
    if st.x = x1 ∧ st.y = y1 then buf
    else
      let e2 := 2 * st.err
      let (err1, x') := if e2 > -dy then (st.err - dy, st.x + sx) else (st.err, st.x)
      let (err2, y') := if e2 < dx then (err1 + dx, st.y + sy) else (err1, st.y)
      drawLineAux color x1 y1 dx dy sx sy fuel ⟨buf, x', y', err2⟩

/-- TreeRenderer::draw_line: the integer Bresenham line with silent clipping. -/
def draw_line (buf : PixelBuffer) (x0 y0 x1 y1 : ℤ) (color : ℕ) : PixelBuffer :=
  let dx := |x1 - x0|
  let dy := |y1 - y0|
  let sx : ℤ := if x0 < x1 then 1 else -1
  let sy : ℤ := if y0 < y1 then 1 else -1
  drawLineAux color x1 y1 dx dy sx sy (dx + dy + 1).toNat ⟨buf, x0, y0, dx - dy⟩

/-- TreeRenderer::draw_thick_line: parallel Bresenham lines offset along both
axes by every integer in [-half_thickness, half_thickness]. -/
def draw_thick_line (buf : PixelBuffer) (pstart pend : Point2Df)
    (thickness : ℚ) (color : ℕ) : PixelBuffer :=
  let x0 := roundQ pstart.x
  let y0 := roundQ pstart.y
  let x1 := roundQ pend.x
  let y1 := roundQ pend.y
  let half_thickness := ⌈thickness * (1/2)⌉
  (intRange (-half_thickness) half_thickness).foldl (fun b offset =>
    let b := draw_line b (x0 + offset) y0 (x1 + offset) y1 color
    draw_line b x0 (y0 + offset) x1 (y1 + offset) color) buf

/-- TreeRenderer::draw_leaf_cluster: filled disc over the bounding square. -/
def draw_leaf_cluster (buf : PixelBuffer) (cluster : LeafCluster) : PixelBuffer :=
  let center_x := roundQ cluster.position.x
  let center_y := roundQ cluster.position.y
  let radius := ⌈cluster.size⌉
  let color := cluster.color.to_rgba
  (intRange (-radius) radius).foldl (fun b y =>
    (intRange (-radius) radius).foldl (fun b2 x =>
      if x * x + y * y ≤ radius * radius then
        let pixel_x := center_x + x
        let pixel_y := center_y + y
        if b2.contains pixel_x pixel_y then b2.setPix pixel_x pixel_y color else b2
      else b2) b) buf

/-- TreeRenderer::render: a canvas-sized transparent buffer, branches drawn in
flat-list order, leaf clusters on top. -/
def render (t : TreeStructure) : PixelBuffer :=
  let buffer := PixelBuffer.mk0 t.parameters.canvas_width.toNat t.parameters.canvas_height.toNat
  let buffer := t.all_branches.foldl (fun b br =>
    draw_thick_line b br.start_point br.end_point br.thickness br.color.to_rgba) buffer
  t.leaf_clusters.foldl draw_leaf_cluster buffer

/-- TreeMetadata from the TreeGenerator translation unit.  Wall-clock
generation time is not modelled and is reported as zero. -/
structure TreeMetadata where
  generation_id : ℕ
  branch_count : ℕ
  leaf_count : ℕ
  max_depth : ℤ
  generation_time_ms : ℚ
  bounding_box : Rect2D
  random_seed : ℕ
deriving DecidableEq

/-- TreeStructure::max_depth: fold of max over the branch depth levels. -/
def treeMaxDepth (t : TreeStructure) : ℤ :=
  t.all_branches.foldl (fun acc b => max acc b.depth_level) 0

/-- Mutable state of a TreeGenerator instance: the owned random source, the
rule table of the embedded LSystemGenerator, and the entropy stream standing
in for std::random_device. -/
structure GenState where
  rng : RandomGen
  rules : List (Char × LSystemRule)
  deviceFn : ℕ → ℕ
  devicePos : ℕ

/-- TreeGenerator::generate: resolve the seed (drawing from the device stream
exactly when the requested seed is zero), reseed the owned random source,
normalize the parameters, set up the rules, run the L-system pipeline, and
render.  Returns the (buffer, metadata) pair and the post-call state. -/
def generate (env : Env) (params : TreeParameters) (g : GenState) :
    (PixelBuffer × TreeMetadata) × GenState :=
  let actual_seed := if params.random_seed = 0 then g.deviceFn g.devicePos else params.random_seed
  let g := if params.random_seed = 0 then { g with devicePos := g.devicePos + 1 } else g
  let rng0 := RandomGen.ofSeed env actual_seed
  let np := validateParams params
  let rules := setup_rules np.type
  let sr := generate_string np rng0
  let tr := string_to_tree env sr.1 np sr.2
  let lr := generate_leaf_clusters tr.1 tr.2
  let tree3 := calculate_bounding_box lr.1
  let pixel_buffer := render tree3
  let metadata : TreeMetadata :=
    { generation_id := tree3.generation_id,
      branch_count := tree3.all_branches.length,
      leaf_count := tree3.leaf_clusters.length,
      max_depth := treeMaxDepth tree3,
      generation_time_ms := 0,
      bounding_box := tree3.bounding_box,
      random_seed := actual_seed }
  ((pixel_buffer, metadata), { g with rng := lr.2, rules := rules })

/-- The loop body of generate_batch: one generate call on the current
generator state, its result appended to the output list. -/
def batchStep (env : Env) (acc : List (PixelBuffer × TreeMetadata) × GenState)
    (params : TreeParameters) : List (PixelBuffer × TreeMetadata) × GenState :=
  let r := generate env params acc.2
  (acc.1 ++ [r.1], r.2)

/-- TreeGenerator::generate_batch: the sequential loop of generate calls,
appending each result in order. -/
def generate_batch (env : Env) (params_list : List TreeParameters) (g : GenState) :
    List (PixelBuffer × TreeMetadata) × GenState :=
  params_list.foldl (batchStep env) ([], g)

/-! Concrete fixtures used by witnesses and counterexamples. -/

/-- Oracle whose every float draw is 0 and whose trigonometry is the identity
rotation; any Env is a legitimate instantiation of the numeric kernels. -/
def envZero : Env := ⟨fun _ _ => 0, fun _ => 1, fun _ => 0⟩

/-- Oracle whose every float draw is 0.95. -/
def envHigh : Env := ⟨fun _ _ => 19/20, fun _ => 1, fun _ => 0⟩

/-- A random stream of zeros at position zero. -/
def rngZero : RandomGen := ⟨fun _ => 0, 0⟩

/-- A generator state whose device stream is the identity. -/
def genStateZero : GenState := ⟨rngZero, [], fun n => n, 0⟩

/-- A generator state whose device stream yields 5, 9, 13, ... -/
def genStateDev : GenState := ⟨rngZero, [], fun n => 5 + 4 * n, 0⟩

/-- The oak preset with an explicit non-zero seed. -/
def pSeeded : TreeParameters := { TreePresets.oak with random_seed := 12345 }

/-- A fallback metadata value for list lookups. -/
def dummyMetadata : TreeMetadata :=
  { generation_id := 0, branch_count := 0, leaf_count := 0, max_depth := 0,
    generation_time_ms := 0, bounding_box := ⟨⟨0, 0⟩, ⟨0, 0⟩⟩, random_seed := 0 }

/-! Claim C1: determinism of generate under a non-zero seed. -/

/-- generate reads its incoming state only to resolve a zero seed, so with a
non-zero seed the returned (buffer, metadata) pair is a function of the
environment and the parameters alone. -/
lemma generate_fst_state_irrelevant (env : Env) (params : TreeParameters)
    (g g2 : GenState) (h : params.random_seed ≠ 0) :
    (generate env params g).1 = (generate env params g2).1 := by
  simp [generate, h]

/-- C1: for every parameter set whose random_seed is non-zero, two calls to
TreeGenerator::generate yield identical metadata (branch count, leaf count,
max depth, and every other field) and pixel-for-pixel identical buffers:
the full (buffer, metadata) results coincide whatever the two generator
states at call time are. -/
theorem C1_generate_deterministic (env : Env) (params : TreeParameters)
    (g g2 : GenState) (h : params.random_seed ≠ 0) :
    (generate env params g).1 = (generate env params g2).1 :=
  generate_fst_state_irrelevant env params g g2 h

/-- Witness for C1 at the oak preset with seed 12345 and two distinct states. -/
theorem C1_generate_deterministic_witness :
    pSeeded.random_seed ≠ 0 ∧
    (generate envZero pSeeded genStateZero).1 = (generate envZero pSeeded genStateDev).1 :=
  ⟨by decide, C1_generate_deterministic envZero pSeeded genStateZero genStateDev (by decide)⟩

/-! Claim C5: the dead preset yields no leaf clusters. -/

/-- string_to_tree stores the parameters it was given in the structure. -/
lemma string_to_tree_parameters (env : Env) (s : List Char) (p : TreeParameters)
    (g : RandomGen) : ((string_to_tree env s p g).1).parameters = p := rfl

/-- string_to_tree never creates leaf clusters. -/
lemma string_to_tree_leaf_clusters (env : Env) (s : List Char) (p : TreeParameters)
    (g : RandomGen) : ((string_to_tree env s p g).1).leaf_clusters = [] := rfl

/-- calculate_bounding_box only rewrites the bounding box field. -/
lemma calculate_bounding_box_leaf_clusters (t : TreeStructure) :
    (calculate_bounding_box t).leaf_clusters = t.leaf_clusters := by
  unfold calculate_bounding_box
  cases t.all_branches <;> rfl

/-- calculate_bounding_box leaves the branch arena unchanged. -/
lemma calculate_bounding_box_branches (t : TreeStructure) :
    (calculate_bounding_box t).all_branches = t.all_branches := by
  unfold calculate_bounding_box
  cases t.all_branches <;> rfl

/-- With a non-positive leaf density, generate_leaf_clusters returns its
arguments unchanged (the early return of the source). -/
lemma generate_leaf_clusters_nonpos (t : TreeStructure) (g : RandomGen)
    (h : t.parameters.leaves.density ≤ 0) : generate_leaf_clusters t g = (t, g) := by
  simp [generate_leaf_clusters, h]

/-- The dead preset normalizes to leaf density zero. -/
lemma validate_dead_density : (validateParams TreePresets.dead).leaves.density = 0 := by
  decide

/-- C5: for every environment and every generator state (hence for every
seed, including device-resolved zero seeds), generate on the dead preset
reports zero leaf clusters: density zero guarantees no leaves. -/
theorem C5_dead_preset_no_leaves (env : Env) (g : GenState) :
    ((generate env TreePresets.dead g).1.2).leaf_count = 0 := by
  simp only [generate]
  rw [generate_leaf_clusters_nonpos _ _
    (by rw [string_to_tree_parameters, validate_dead_density])]
  rw [calculate_bounding_box_leaf_clusters, string_to_tree_leaf_clusters]
  rfl

/-! Claim C7: the alpha-blend semantics of blit_with_alpha / blend_pixels. -/

/-- Forcing the low byte with a bitwise or of 255 makes the low byte 255. -/
lemma lor_255_land_255 (x : ℕ) : (x ||| 255) &&& 255 = 255 := by
  apply Nat.eq_of_testBit_eq
  intro i
  simp only [Nat.testBit_land, Nat.testBit_lor]
  cases h : Nat.testBit 255 i <;> simp [h]

/-- C7 counterexample: compositing a foreground pixel of alpha 0 writes the
destination pixel back unchanged, so the written pixel keeps the destination
alpha, which need not be 255: on a transparent 1-by-1 destination and a
foreground pixel 256 (blue 1, alpha 0) the written pixel has alpha 0.  This
refutes the conjunct that the composited pixel always has alpha forced to
255. -/
theorem C7_blend_opaque_counterexample :
    PixelBuffer.blit_with_alpha ⟨1, 1, [0]⟩ ⟨1, 1, [256]⟩ ⟨0, 0⟩ = ⟨1, 1, [0]⟩ ∧
    (PixelBuffer.blit_with_alpha ⟨1, 1, [0]⟩ ⟨1, 1, [256]⟩ ⟨0, 0⟩).pixel 0 0 &&& 0xFF ≠ 255 := by
  decide

/-- C7 amended: foreground alpha 0 leaves the destination pixel unchanged,
foreground alpha 255 fully replaces it with the foreground, and whenever the
foreground alpha is non-zero the composited pixel has its alpha channel equal
to 255. -/
theorem C7_blend_pixels_semantics (background foreground : ℕ) :
    (foreground &&& 0xFF = 0 → blend_pixels background foreground = background) ∧
    (foreground &&& 0xFF = 255 → blend_pixels background foreground = foreground) ∧
    (foreground &&& 0xFF ≠ 0 → blend_pixels background foreground &&& 0xFF = 255) := by
  refine ⟨fun h => ?_, fun h => ?_, fun h => ?_⟩
  · simp [blend_pixels, h]
  · simp [blend_pixels, h]
  · by_cases h255 : foreground &&& 0xFF = 255
    · simp [blend_pixels, h, h255]
    · simp only [blend_pixels, if_neg h, if_neg h255]
      exact lor_255_land_255 _

/-- Witness for C7 amended at concrete pixels covering all three branches. -/
theorem C7_blend_pixels_semantics_witness :
    blend_pixels 7 256 = 7 ∧ blend_pixels 7 511 = 511 ∧
    blend_pixels 7 1 &&& 0xFF = 255 :=
  ⟨(C7_blend_pixels_semantics 7 256).1 (by decide),
   (C7_blend_pixels_semantics 7 511).2.1 (by decide),
   (C7_blend_pixels_semantics 7 1).2.2 (by decide)⟩

/-! Claim C8: bounds of contains and of the checked accessor. -/

/-- C8: contains is true exactly on coordinates inside [0,w) x [0,h), and the
checked accessor signals the out-of-range error exactly when a coordinate
reaches the corresponding dimension. -/
theorem C8_contains_at_bounds (buf : PixelBuffer) (x y : ℤ) (u v : ℕ) :
    (buf.contains x y = true ↔
      0 ≤ x ∧ x < (buf.width : ℤ) ∧ 0 ≤ y ∧ y < (buf.height : ℤ)) ∧
    (buf.at u v = Except.error "Pixel coordinates out of bounds" ↔
      buf.width ≤ u ∨ buf.height ≤ v) := by
  constructor
  · simp [PixelBuffer.contains, and_assoc]
  · unfold PixelBuffer.at
    by_cases h : buf.width ≤ u ∨ buf.height ≤ v
    · simp [h]
    · simp [h]

/-! Claim C10: frame effect of blit. -/

/-- An invariant closed under every step of a list fold is preserved by it. -/
lemma foldl_preserve {α β : Type} (Inv : β → Prop) (f : β → α → β) (l : List α)
    (hstep : ∀ a ∈ l, ∀ d, Inv d → Inv (f d a)) :
    ∀ d, Inv d → Inv (l.foldl f d) := by
  induction l with
  | nil => exact fun d hd => hd
  | cons a l ih =>
    intro d hd
    exact ih (fun b hb d2 hd2 => hstep b (List.mem_cons_of_mem a hb) d2 hd2)
      (f d a) (hstep a (List.mem_cons_self a l) d hd)

/-- Row-major flat indices of distinct in-row-range coordinates differ. -/
lemma rowMajor_ne {W a b a2 b2 : ℕ} (ha : a < W) (ha2 : a2 < W)
    (hne : a ≠ a2 ∨ b ≠ b2) : b * W + a ≠ b2 * W + a2 := by
  intro h
  have hW : 0 < W := lt_of_le_of_lt (Nat.zero_le a) ha
  have hmod : a = a2 := by
    have h2 := congrArg (fun n => n % W) h
    simpa [Nat.add_comm, Nat.add_mul_mod_self_right, Nat.mod_eq_of_lt ha,
      Nat.mod_eq_of_lt ha2] using h2
  have hdiv : b = b2 := by
    have h2 := congrArg (fun n => n / W) h
    simpa [Nat.add_comm, Nat.add_mul_div_right _ _ hW, Nat.div_eq_of_lt ha,
      Nat.div_eq_of_lt ha2] using h2
  rcases hne with hne | hne <;> exact hne (by omega)

/-- getD after a set at a different index reads the original element. -/
lemma getD_set_ne {α : Type} (l : List α) (i j : ℕ) (v d : α) (h : i ≠ j) :
    (l.set i v).getD j d = l.getD j d := by
  simp [List.getD_eq_getElem?_getD, List.getElem?_set_ne h]

/-- C10: blit leaves the destination dimensions unchanged and leaves every
destination pixel outside the translated source rectangle unchanged. -/
theorem C10_blit_frame (dst src : PixelBuffer) (position : Point2Di) (x y : ℤ)
    (hx0 : 0 ≤ x) (hxw : x < (dst.width : ℤ)) (hy0 : 0 ≤ y) (hyh : y < (dst.height : ℤ))
    (hout : x < position.x ∨ position.x + (src.width : ℤ) ≤ x ∨
            y < position.y ∨ position.y + (src.height : ℤ) ≤ y) :
    (dst.blit src position).width = dst.width ∧
    (dst.blit src position).height = dst.height ∧
    (dst.blit src position).pixel x y = dst.pixel x y := by
  let Inv : PixelBuffer → Prop := fun d =>
    d.width = dst.width ∧ d.height = dst.height ∧ d.pixel x y = dst.pixel x y
  have hres : Inv (dst.blit src position) := by
    unfold PixelBuffer.blit
    apply foldl_preserve Inv _ _ _ dst ⟨rfl, rfl, rfl⟩
    intro sy hsy d hd
    apply foldl_preserve Inv _ _ _ d hd
    intro sx hsx d2 hd2
    have hsx' := List.mem_range.mp hsx
    have hsy' := List.mem_range.mp hsy
    by_cases hc : d2.contains (position.x + (sx : ℤ)) (position.y + (sy : ℤ)) = true
    · simp only [hc, if_true]
      obtain ⟨hw, hh, hp⟩ := hd2
      refine ⟨hw, hh, ?_⟩
      have hb := hc
      simp only [PixelBuffer.contains, Bool.and_eq_true, decide_eq_true_eq] at hb
      obtain ⟨⟨⟨hdx0, hdxw⟩, hdy0⟩, hdyh⟩ := hb
      rw [hw] at hdxw
      rw [hh] at hdyh
      -- the write coordinate lies inside the translated rectangle, so it
      -- differs from (x, y)
      have hcoord : (position.x + (sx : ℤ)).toNat ≠ x.toNat ∨
          (position.y + (sy : ℤ)).toNat ≠ y.toNat := by
        rcases hout with h1 | h1 | h1 | h1
        · exact Or.inl (by omega)
        · exact Or.inl (by omega)
        · exact Or.inr (by omega)
        · exact Or.inr (by omega)
      show (d2.setPix _ _ _).pixel x y = _
      unfold PixelBuffer.setPix PixelBuffer.pixel
      simp only
      rw [getD_set_ne]
      · exact hp
      · rw [hw]
        exact rowMajor_ne (by omega) (by omega) (by tauto)
    · simpa [hc] using hd2
  exact ⟨hres.1, hres.2.1, hres.2.2⟩

/-- Witness for C10 on a 2-by-2 destination, a 1-by-1 source at the origin,
and the untouched destination pixel (1, 1). -/
theorem C10_blit_frame_witness :
    ((0 : ℤ) ≤ 1 ∧ (1 : ℤ) < 2 ∧ ((0 : ℤ) + 1 ≤ 1)) ∧
    ((PixelBuffer.blit ⟨2, 2, [1, 2, 3, 4]⟩ ⟨1, 1, [9]⟩ ⟨0, 0⟩).width = 2 ∧
     (PixelBuffer.blit ⟨2, 2, [1, 2, 3, 4]⟩ ⟨1, 1, [9]⟩ ⟨0, 0⟩).height = 2 ∧
     (PixelBuffer.blit ⟨2, 2, [1, 2, 3, 4]⟩ ⟨1, 1, [9]⟩ ⟨0, 0⟩).pixel 1 1 =
       (PixelBuffer.mk 2 2 [1, 2, 3, 4]).pixel 1 1) :=
  ⟨by decide,
   C10_blit_frame ⟨2, 2, [1, 2, 3, 4]⟩ ⟨1, 1, [9]⟩ ⟨0, 0⟩ 1 1
     (by decide) (by decide) (by decide) (by decide) (Or.inr (Or.inl (by decide)))⟩

/-! Claim C2: thickness along the branch hierarchy. -/

/-- The thickness/depth coupling maintained by the interpreter: the thickness
always equals the base thickness times decay to the power of the depth, and
the depth is never negative. -/
def ThickOK (p : TreeParameters) (th : ℚ) (d : ℤ) : Prop :=
  0 ≤ d ∧ th = p.branches.base_thickness * p.branches.thickness_decay ^ d.toNat

/-- The interpreter invariant: the current state, every stacked state and
every emitted branch satisfy the thickness/depth coupling. -/
def ThickInv (p : TreeParameters) (st : BuildState) : Prop :=
  ThickOK p st.current.thickness st.current.depth ∧
  (∀ s ∈ st.stack, ThickOK p s.thickness s.depth) ∧
  (∀ b ∈ st.branches, ThickOK p b.thickness b.depth_level)

/-- Elements of the children-update write of the grow case are either old
elements or share thickness and depth with an old element. -/
lemma mem_set_children (l : List Branch) (j idx : ℕ) (b : Branch)
    (hb : b ∈ l.set j
      (let pb := l.getD j dummyBranch
       { pb with children := pb.children ++ [idx] })) :
    ∃ b0 ∈ l, b.thickness = b0.thickness ∧ b.depth_level = b0.depth_level := by
  by_cases hj : j < l.length
  · rcases List.mem_or_eq_of_mem_set hb with hb | hb
    · exact ⟨b, hb, rfl, rfl⟩
    · refine ⟨l.getD j dummyBranch, ?_, ?_⟩
      · have : l.getD j dummyBranch = l[j] := by
          simp [List.getD_eq_getElem?_getD, List.getElem?_eq_getElem hj]
        rw [this]
        exact List.getElem_mem hj
      · subst hb
        exact ⟨rfl, rfl⟩
  · rw [List.set_eq_of_length_le (by omega)] at hb
    exact ⟨b, hb, rfl, rfl⟩

/-- The symbol switch of string_to_tree preserves the coupling invariant. -/
lemma thickInv_applySymbol (env : Env) (p : TreeParameters) (st : BuildState)
    (c : Char) (h : ThickInv p st) : ThickInv p (applySymbol env p st c) := by
  obtain ⟨hcur, hstack, hbr⟩ := h
  unfold applySymbol
  by_cases hF : c = 'F'
  · simp only [if_pos hF]
    cases hr : st.root with
    | none =>
      simp only [hr, Option.isNone_none, if_pos]
      refine ⟨hcur, hstack, ?_⟩
      intro b hb
      rcases List.mem_append.mp hb with hb | hb
      · exact hbr b hb
      · rw [List.mem_singleton] at hb
        subst hb
        exact hcur
    | some r =>
      simp only [hr, Option.isNone_some, Bool.false_eq_true, if_false]
      cases hcb : st.currentBranch with
      | some j =>
        simp only []
        refine ⟨hcur, hstack, ?_⟩
        intro b hb
        rcases List.mem_append.mp hb with hb | hb
        · obtain ⟨b0, hb0, hth, hd⟩ := mem_set_children _ _ _ _ hb
          rw [ThickOK, hth, hd]
          exact hbr b0 hb0
        · rw [List.mem_singleton] at hb
          subst hb
          exact hcur
      | none =>
        simp only []
        refine ⟨hcur, hstack, ?_⟩
        intro b hb
        rcases List.mem_append.mp hb with hb | hb
        · exact hbr b hb
        · rw [List.mem_singleton] at hb
          subst hb
          exact hcur
  · simp only [if_neg hF]
    by_cases hPush : c = '['
    · simp only [if_pos hPush]
      refine ⟨hcur, ?_, hbr⟩
      intro s hs
      rcases List.mem_append.mp hs with hs | hs
      · exact hstack s hs
      · rw [List.mem_singleton] at hs
        subst hs
        exact hcur
    · simp only [if_neg hPush]
      by_cases hPop : c = ']'
      · simp only [if_pos hPop]
        cases hl : st.stack.getLast? with
        | none => exact ⟨hcur, hstack, hbr⟩
        | some s =>
          refine ⟨?_, ?_, hbr⟩
          · have hmem : s ∈ st.stack := by
              have hsm : s ∈ st.stack.getLast? := by rw [hl]; rfl
              obtain ⟨hne, he⟩ := List.mem_getLast?_eq_getLast hsm
              rw [he]
              exact List.getLast_mem hne
            exact hstack s hmem
          · intro s2 hs2
            exact hstack s2 (List.mem_of_mem_dropLast hs2)
      · simp only [if_neg hPop]
        by_cases hPlus : c = '+'
        · simp only [if_pos hPlus]
          exact ⟨hcur, hstack, hbr⟩
        · simp only [if_neg hPlus]
          by_cases hMinus : c = '-'
          · simp only [if_pos hMinus]
            exact ⟨hcur, hstack, hbr⟩
          · simp only [if_neg hMinus]
            exact ⟨hcur, hstack, hbr⟩

/-- The per-symbol decay preserves the coupling invariant. -/
lemma thickInv_decayState (p : TreeParameters) (st : BuildState)
    (h : ThickInv p st) : ThickInv p (decayState p st) := by
  obtain ⟨⟨hd, ht⟩, hstack, hbr⟩ := h
  unfold decayState
  refine ⟨⟨by dsimp only; omega, ?_⟩, hstack, hbr⟩
  dsimp only
  have htn : (st.current.depth + 1).toNat = st.current.depth.toNat + 1 := by omega
  rw [htn, ht, pow_succ, mul_assoc]

/-- A full interpreter step (symbol switch plus unconditional decay)
preserves the coupling invariant. -/
lemma thickInv_buildStep (env : Env) (p : TreeParameters) (st : BuildState)
    (c : Char) (h : ThickInv p st) : ThickInv p (buildStep env p st c) :=
  thickInv_decayState p _ (thickInv_applySymbol env p st c h)

/-- C2 amended: in every TreeStructure produced by string_to_tree, every
branch satisfies thickness = base_thickness * thickness_decay ^ depth_level
with a nonnegative depth_level (decay applies once per processed symbol, with
depth and thickness saved and restored together by the bracket stack). -/
theorem C2_branch_thickness_formula (env : Env) (lstring : List Char)
    (p : TreeParameters) (g : RandomGen) (b : Branch)
    (hb : b ∈ ((string_to_tree env lstring p g).1).all_branches) :
    0 ≤ b.depth_level ∧
    b.thickness = p.branches.base_thickness *
      p.branches.thickness_decay ^ b.depth_level.toNat := by
  simp only [string_to_tree] at hb
  refine (foldl_preserve (ThickInv p) (buildStep env p) lstring
    (fun c _ st hst => thickInv_buildStep env p st c hst) _
    ⟨⟨?_, ?_⟩, ?_, ?_⟩).2.2 b hb
  · exact le_refl 0
  · simp
  · simp
  · simp

/-- Witness for C2 amended on the single branch of the string F. -/
theorem C2_branch_thickness_formula_witness :
    ((string_to_tree envZero ['F'] {} rngZero).1.all_branches.getD 0 dummyBranch)
      ∈ (string_to_tree envZero ['F'] {} rngZero).1.all_branches ∧
    (0 ≤ ((string_to_tree envZero ['F'] {} rngZero).1.all_branches.getD 0 dummyBranch).depth_level ∧
     ((string_to_tree envZero ['F'] {} rngZero).1.all_branches.getD 0 dummyBranch).thickness =
       (({} : TreeParameters)).branches.base_thickness *
       (({} : TreeParameters)).branches.thickness_decay ^
         ((string_to_tree envZero ['F'] {} rngZero).1.all_branches.getD 0 dummyBranch).depth_level.toNat) :=
  ⟨by decide,
   C2_branch_thickness_formula envZero ['F'] {} rngZero _ (by decide)⟩

/-- The grammar-reachable string F[+F[+F][-F]][-F]. -/
def cexString : List Char :=
  ['F', '[', '+', 'F', '[', '+', 'F', ']', '[', '-', 'F', ']', ']', '[', '-', 'F', ']']

/-- A two-iteration rewrite with draws 0, 0.9, 0, 0.9 produces cexString, so
the counterexample string below is reachable from generate_string. -/
theorem generate_string_reaches_cexString :
    (generate_string { branches := { max_depth := clampZ 1 10 2 } }
      ⟨fun n => if n = 1 then 9/10 else if n = 3 then 9/10 else 0, 0⟩).1 = cexString := by
  decide

/-- C2 counterexample: interpreting the grammar-reachable string
F[+F[+F][-F]][-F] with the default parameters (thickness decay 0.8) yields a
branch (index 4, created after two stack pops) whose parent is branch 3 and
whose thickness strictly exceeds the thickness of that parent, refuting
monotone non-increase of thickness along parent-child links. -/
theorem C2_thickness_monotone_counterexample :
    ((string_to_tree envZero cexString {} rngZero).1.all_branches.getD 4 dummyBranch).parent
      = some 3 ∧
    ((string_to_tree envZero cexString {} rngZero).1.all_branches.getD 3 dummyBranch).thickness
      < ((string_to_tree envZero cexString {} rngZero).1.all_branches.getD 4 dummyBranch).thickness := by
  decide

/-! Claim C3: child depth versus parent depth. -/

/-- getD after a set at the written in-range index reads the new element. -/
lemma getD_set_self {α : Type} (l : List α) (i : ℕ) (v d : α) (h : i < l.length) :
    (l.set i v).getD i d = v := by
  simp [List.getD_eq_getElem?_getD, List.getElem?_set_self h]

/-- getD inside the left part of an append. -/
lemma getD_append_left {α : Type} (l l2 : List α) (i : ℕ) (d : α) (h : i < l.length) :
    (l ++ l2).getD i d = l.getD i d := by
  simp [List.getD_eq_getElem?_getD, List.getElem?_append_left h]

/-- getD at the appended singleton. -/
lemma getD_append_last {α : Type} (l : List α) (b d : α) :
    (l ++ [b]).getD l.length d = b := by
  simp [List.getD_eq_getElem?_getD, List.getElem?_append_right (le_refl l.length)]

/-- getD at the appended singleton, behind a set on the left part. -/
lemma getD_set_append_last {α : Type} (l : List α) (j : ℕ) (v b d : α) :
    (l.set j v ++ [b]).getD l.length d = b := by
  have h := getD_append_last (l.set j v) b d
  simpa using h

/-- Shape of the interpreter state after n grow symbols and nothing else:
the arena is a chain in creation order, the i-th branch sits at depth i and
points to branch i-1 as its parent. -/
def ChainOK (st : BuildState) (n : ℕ) : Prop :=
  st.branches.length = n ∧
  st.current.depth = (n : ℤ) ∧
  st.root = (if n = 0 then none else some 0) ∧
  st.currentBranch = (if n = 0 then none else some (n - 1)) ∧
  ∀ i : ℕ, i < n →
    (st.branches.getD i dummyBranch).depth_level = (i : ℤ) ∧
    (st.branches.getD i dummyBranch).parent = (if i = 0 then none else some (i - 1))

/-- Processing one further grow symbol extends the chain by one. -/
lemma chainOK_step (env : Env) (p : TreeParameters) (st : BuildState) (n : ℕ)
    (h : ChainOK st n) : ChainOK (buildStep env p st 'F') (n + 1) := by
  obtain ⟨hlen, hdep, hroot, hcb, hidx⟩ := h
  rcases Nat.eq_zero_or_pos n with hn | hn
  · subst hn
    have hb : st.branches = [] := List.length_eq_zero.mp hlen
    simp only [if_pos rfl] at hroot hcb
    refine ⟨?_, ?_, ?_, ?_, ?_⟩ <;>
      simp only [buildStep, decayState, applySymbol, if_pos rfl, if_true, hroot, hb, hdep,
        Option.isNone_none, List.nil_append, List.length_singleton] <;>
      try rfl
    intro i hi
    have : i = 0 := by omega
    subst this
    exact ⟨rfl, rfl⟩
  · have hne : n ≠ 0 := by omega
    simp only [if_neg hne] at hroot hcb
    refine ⟨?_, ?_, ?_, ?_, ?_⟩ <;>
      simp only [buildStep, decayState, applySymbol, if_pos rfl, if_true, hroot, hcb,
        Option.isNone_some, Bool.false_eq_true, if_false]
    · simp [hlen]
    · rw [hdep]; push_cast; ring
    · simp [if_neg (by omega : ¬ n + 1 = 0)]
    · simp only [if_neg (by omega : ¬ n + 1 = 0), hlen]
      exact congrArg some (by omega)
    · intro i hi
      by_cases hin : i = n
      · subst hin
        constructor
        · rw [← hlen, getD_set_append_last]
          rw [hdep, hlen]
        · rw [← hlen, getD_set_append_last]
          rw [if_neg (by omega : ¬ st.branches.length = 0)]
      · have hilt : i < n := by omega
        constructor
        · rw [getD_append_left _ _ _ _ (by rw [List.length_set, hlen]; omega)]
          by_cases hj : i = n - 1
          · rw [hj, getD_set_self _ _ _ _ (by rw [hlen]; omega)]
            exact (hidx (n - 1) (by omega)).1
          · rw [getD_set_ne _ _ _ _ _ (fun hc => hj hc.symm)]
            exact (hidx i hilt).1
        · rw [getD_append_left _ _ _ _ (by rw [List.length_set, hlen]; omega)]
          by_cases hj : i = n - 1
          · rw [hj, getD_set_self _ _ _ _ (by rw [hlen]; omega)]
            exact (hidx (n - 1) (by omega)).2
          · rw [getD_set_ne _ _ _ _ _ (fun hc => hj hc.symm)]
            exact (hidx i hilt).2

/-- The chain shape holds after any number of grow symbols from a fresh
interpreter state. -/
lemma chainOK_fold (env : Env) (p : TreeParameters) (st0 : BuildState)
    (h0 : ChainOK st0 0) :
    ∀ n : ℕ, ChainOK ((List.replicate n 'F').foldl (buildStep env p) st0) n := by
  intro n
  induction n with
  | zero => simpa using h0
  | succ m ih =>
    rw [List.replicate_succ', List.foldl_append, List.foldl_cons, List.foldl_nil]
    exact chainOK_step env p _ m ih

/-- C3 amended: the interpreter depth counter increments once per processed
symbol and is saved and restored by the bracket stack, so in general a child
branch does not sit exactly one level below its parent; for symbol strings
consisting only of grow symbols every child does satisfy
depth_level = parent depth_level + 1, the i-th branch having depth i and
parent i-1.  (The one-level offset can also arise with intervening symbols
when pops and decays cancel, see depth_succ_with_intervening_symbols, so
grow-only strings are a sufficient condition, not a characterization.) -/
theorem C3_grow_only_depth_succ (env : Env) (p : TreeParameters) (g : RandomGen)
    (n i : ℕ) (h : i + 1 < n) :
    ((string_to_tree env (List.replicate n 'F') p g).1.all_branches.getD (i + 1) dummyBranch).parent
      = some i ∧
    ((string_to_tree env (List.replicate n 'F') p g).1.all_branches.getD (i + 1) dummyBranch).depth_level
      = ((string_to_tree env (List.replicate n 'F') p g).1.all_branches.getD i dummyBranch).depth_level
        + 1 := by
  have hch := chainOK_fold env p
    { current := { position := ⟨(p.canvas_width : ℚ) * (1/2), (p.canvas_height : ℚ) * (9/10)⟩,
                   direction := ⟨0, -1⟩, thickness := p.branches.base_thickness,
                   depth := 0, color := p.trunk.base_color },
      stack := [], currentBranch := none, root := none, branches := [], rng := g }
    (by refine ⟨rfl, rfl, rfl, rfl, ?_⟩; intro i hi; omega) n
  obtain ⟨-, -, -, -, hidx⟩ := hch
  obtain ⟨hd1, hp1⟩ := hidx (i + 1) h
  obtain ⟨hd0, -⟩ := hidx i (by omega)
  simp only [string_to_tree]
  refine ⟨?_, ?_⟩
  · rw [hp1]
    simp
  · rw [hd1, hd0]
    push_cast
    ring

/-- Witness for C3 amended on the two-grow-symbol string FF. -/
theorem C3_grow_only_depth_succ_witness :
    0 + 1 < 2 ∧
    (((string_to_tree envZero (List.replicate 2 'F') {} rngZero).1.all_branches.getD 1 dummyBranch).parent
        = some 0 ∧
     ((string_to_tree envZero (List.replicate 2 'F') {} rngZero).1.all_branches.getD 1 dummyBranch).depth_level
        = ((string_to_tree envZero (List.replicate 2 'F') {} rngZero).1.all_branches.getD 0 dummyBranch).depth_level
          + 1) :=
  ⟨by omega, C3_grow_only_depth_succ envZero {} rngZero 2 0 (by omega)⟩

/-- The grammar string F[+F][-F], the single-iteration rewrite output when
the branching draw succeeds. -/
def cexString1 : List Char := ['F', '[', '+', 'F', ']', '[', '-', 'F', ']']

/-- In F[+F][-F], branch 2 is a child of branch 1 and sits exactly one level
below it (depth 4 = 3 + 1) although the symbols ][- intervene between the
two grow symbols: the pop and the per-symbol decays cancel.  Hence
depth_level = parent depth_level + 1 is not tied to adjacency of the grow
symbols, and the amended C3 claims adjacency-free grow-only strings only as
a sufficient condition. -/
theorem depth_succ_with_intervening_symbols :
    ((string_to_tree envZero cexString1 {} rngZero).1.all_branches.getD 2 dummyBranch).parent
      = some 1 ∧
    ((string_to_tree envZero cexString1 {} rngZero).1.all_branches.getD 2 dummyBranch).depth_level
      = ((string_to_tree envZero cexString1 {} rngZero).1.all_branches.getD 1 dummyBranch).depth_level
        + 1 := by
  decide

/-- C3 counterexample: interpreting F[+F][-F] makes branch 1 a child of
branch 0 while the depth counter advanced three symbols in between, so the
child depth level is 3, not the parent depth level plus one. -/
theorem C3_child_depth_counterexample :
    ((string_to_tree envZero cexString1 {} rngZero).1.all_branches.getD 1 dummyBranch).parent
      = some 0 ∧
    ((string_to_tree envZero cexString1 {} rngZero).1.all_branches.getD 1 dummyBranch).depth_level
      ≠ ((string_to_tree envZero cexString1 {} rngZero).1.all_branches.getD 0 dummyBranch).depth_level
        + 1 := by
  decide

/-! Claim C4: bounds on the number of generated branches. -/

/-- One interpreter step grows the arena by one branch on a grow symbol and
leaves it unchanged on every other symbol. -/
lemma buildStep_branches_length (env : Env) (p : TreeParameters) (st : BuildState)
    (c : Char) :
    (buildStep env p st c).branches.length =
      st.branches.length + (if c = 'F' then 1 else 0) := by
  unfold buildStep decayState applySymbol
  by_cases hF : c = 'F'
  · simp only [if_pos hF]
    cases hr : st.root with
    | none => simp
    | some r =>
      cases hcb : st.currentBranch with
      | some j => simp
      | none => simp
  · simp only [if_neg hF]
    by_cases hPush : c = '['
    · simp [hPush]
    · simp only [if_neg hPush]
      by_cases hPop : c = ']'
      · simp only [if_pos hPop, if_neg hF]
        cases hl : st.stack.getLast? <;> simp [hF]
      · simp only [if_neg hPop]
        by_cases hPlus : c = '+'
        · simp [hPlus, hF]
        · simp only [if_neg hPlus]
          by_cases hMinus : c = '-'
          · simp [hMinus, hF]
          · simp [hMinus, hF]

/-- The interpreter creates exactly one branch per grow symbol. -/
lemma foldl_buildStep_length (env : Env) (p : TreeParameters) :
    ∀ (s : List Char) (st : BuildState),
      ((s.foldl (buildStep env p) st).branches).length =
        st.branches.length + s.count 'F' := by
  intro s
  induction s with
  | nil => intro st; simp
  | cons c s ih =>
    intro st
    rw [List.foldl_cons, ih, buildStep_branches_length, List.count_cons]
    by_cases hF : c = 'F' <;> simp [hF] <;> omega

/-- The arena of string_to_tree has one branch per grow symbol. -/
lemma string_to_tree_branch_count (env : Env) (s : List Char)
    (p : TreeParameters) (g : RandomGen) :
    ((string_to_tree env s p g).1).all_branches.length = s.count 'F' := by
  simp only [string_to_tree]
  rw [foldl_buildStep_length]
  simp

/-- The branching pattern contributes two further grow symbols. -/
lemma branchPattern_count : branchPattern.count 'F' = 2 := by decide

/-- Each rewrite pass at most triples the number of grow symbols. -/
lemma rewrite_count_le (p : TreeParameters) :
    ∀ (s : List Char) (acc : List Char × RandomGen),
      ((s.foldl (rewriteStep p) acc).1).count 'F' ≤
        acc.1.count 'F' + 3 * s.count 'F' := by
  intro s
  induction s with
  | nil => intro acc; simp
  | cons c s ih =>
    intro acc
    rw [List.foldl_cons]
    refine le_trans (ih _) ?_
    have hstep : ((rewriteStep p acc c).1).count 'F' ≤
        acc.1.count 'F' + 3 * List.count 'F' [c] := by
      unfold rewriteStep
      by_cases hF : c = 'F'
      · simp only [if_pos hF, hF]
        by_cases hd : acc.2.next_float.1 < p.branches.branch_probability
        · simp [hd, List.count_append, branchPattern_count]
        · simp [hd, List.count_append]
      · simp only [if_neg hF]
        rw [List.count_append]
        have hc0 : List.count 'F' [c] = 0 := by
          simp [List.count_cons, hF]
        omega
    have hcc : List.count 'F' (c :: s) = List.count 'F' s + List.count 'F' [c] := by
      simp [List.count_cons]
    omega

/-- One full rewrite pass at most triples the grow-symbol count. -/
lemma rewriteOnce_count_le (p : TreeParameters) (s : List Char) (g : RandomGen) :
    ((rewriteOnce p s g).1).count 'F' ≤ 3 * s.count 'F' := by
  have h := rewrite_count_le p s ([], g)
  simpa [rewriteOnce] using h

/-- n rewrite passes at most multiply the grow-symbol count by 3^n. -/
lemma iterRewrite_count_le (p : TreeParameters) :
    ∀ (n : ℕ) (acc : List Char × RandomGen),
      ((iterRewrite p acc n).1).count 'F' ≤ 3 ^ n * acc.1.count 'F' := by
  intro n
  induction n with
  | zero => intro acc; simp [iterRewrite]
  | succ m ih =>
    intro acc
    show ((iterRewrite p (rewriteOnce p acc.1 acc.2) m).1).count 'F' ≤ _
    refine le_trans (ih _) ?_
    have h2 := rewriteOnce_count_le p acc.1 acc.2
    calc 3 ^ m * ((rewriteOnce p acc.1 acc.2).1).count 'F'
        ≤ 3 ^ m * (3 * acc.1.count 'F') := Nat.mul_le_mul_left _ h2
      _ = 3 ^ (m + 1) * acc.1.count 'F' := by ring

/-- The L-system string holds at most 3 ^ max_depth grow symbols. -/
lemma generate_string_count_le (p : TreeParameters) (g : RandomGen) :
    ((generate_string p g).1).count 'F' ≤ 3 ^ p.branches.max_depth.toNat := by
  have h := iterRewrite_count_le p p.branches.max_depth.toNat (['F'], g)
  simpa [generate_string] using h

/-- generate_leaf_clusters never changes the branch arena. -/
lemma generate_leaf_clusters_branches (t : TreeStructure) (g : RandomGen) :
    ((generate_leaf_clusters t g).1).all_branches = t.all_branches := by
  unfold generate_leaf_clusters
  by_cases h : t.parameters.leaves.density ≤ 0 <;> simp [h]

/-- C4 amended: the work of a generation run is bounded by the normalized max
depth alone: the branch arena holds at most 3 ^ max_depth branches (one per
grow symbol of the rewritten string).  The max_branches parameter is not read
by the generation pipeline and does not bound the branch count. -/
theorem C4_branch_count_bound (env : Env) (params : TreeParameters) (g : GenState) :
    (generate env params g).1.2.branch_count ≤
      3 ^ (validateParams params).branches.max_depth.toNat := by
  simp only [generate]
  rw [calculate_bounding_box_branches, generate_leaf_clusters_branches,
    string_to_tree_branch_count]
  exact generate_string_count_le _ _

/-- Parameters that overflow the configured max_branches: depth 2 and branch
probability 1 produce 9 branches while max_branches is clamped to its minimum
of 8. -/
def pOverflow : TreeParameters :=
  { branches := { branch_probability := clampQ 0 1 1, max_depth := clampZ 1 10 2,
                  max_branches := clampZ 8 64 8 },
    random_seed := 1 }

/-- C4 counterexample: a generation run whose arena holds 9 branches although
the max_branches parameter is 8, refuting the claim that the branch count
never exceeds branches.max_branches. -/
theorem C4_max_branches_counterexample :
    (generate envZero pOverflow genStateZero).1.2.branch_count = 9 ∧
    pOverflow.branches.max_branches = 8 ∧
    ¬ ((generate envZero pOverflow genStateZero).1.2.branch_count : ℤ) ≤
        pOverflow.branches.max_branches := by
  decide

/-! Claim C6: leaf and branch counts of the non-dead presets. -/

/-- C6 failing input: with every uniform draw at 0.95, generate on the oak
preset produces a positive branch count but zero leaf clusters (the single
childless branch of the chain-shaped arena fails its one Bernoulli trial,
0.95 being at least the oak leaf density 0.9), contradicting the claim and
the integration test of the repository that require leaf_count > 0 for the
oak, pine and palm presets. -/
theorem C6_oak_zero_leaves_failing_input :
    (generate envHigh TreePresets.oak genStateZero).1.2.leaf_count = 0 ∧
    0 < (generate envHigh TreePresets.oak genStateZero).1.2.branch_count := by
  decide

/-! Claim C9: batch generation versus individual generate calls. -/

/-- The batch fold from any accumulator appends one generate result per
parameter set; when every seed is non-zero the per-element results ignore the
threaded state. -/
lemma batch_fold_eq (env : Env) :
    ∀ (ps : List TreeParameters) (acc : List (PixelBuffer × TreeMetadata) × GenState),
      (∀ P ∈ ps, P.random_seed ≠ 0) →
      (ps.foldl (batchStep env) acc).1 =
        acc.1 ++ ps.map (fun P => (generate env P acc.2).1) := by
  intro ps
  induction ps with
  | nil => intro acc h; simp
  | cons P ps ih =>
    intro acc h
    rw [List.foldl_cons, ih _ (fun Q hQ => h Q (List.mem_cons_of_mem P hQ))]
    have hmap : ps.map (fun Q => (generate env Q (batchStep env acc P).2).1) =
        ps.map (fun Q => (generate env Q acc.2).1) :=
      List.map_congr_left (fun Q hQ =>
        generate_fst_state_irrelevant env Q _ _ (h Q (List.mem_cons_of_mem P hQ)))
    rw [hmap]
    show (batchStep env acc P).1 ++ _ = _
    unfold batchStep
    simp

/-- C9 amended: when every parameter set in the batch has a non-zero seed,
generate_batch returns exactly one result per input, in order, and the i-th
result equals the result of an individual generate call on the i-th
parameter set from the same starting state (zero seeds are re-resolved
nondeterministically per call and are excluded). -/
theorem C9_batch_loop_equivalence (env : Env) (params_list : List TreeParameters)
    (g : GenState) (h : ∀ P ∈ params_list, P.random_seed ≠ 0) :
    (generate_batch env params_list g).1 =
      params_list.map (fun P => (generate env P g).1) := by
  unfold generate_batch
  rw [batch_fold_eq env params_list ([], g) h]
  simp

/-- Witness for C9 amended on a singleton batch with an explicit seed. -/
theorem C9_batch_loop_equivalence_witness :
    (∀ P ∈ [pSeeded], P.random_seed ≠ 0) ∧
    (generate_batch envZero [pSeeded] genStateZero).1 =
      [pSeeded].map (fun P => (generate envZero P genStateZero).1) :=
  ⟨by decide, C9_batch_loop_equivalence envZero [pSeeded] genStateZero (by decide)⟩

/-- Minimal parameters with a zero seed (resolved from the device stream). -/
def pZeroSeed : TreeParameters :=
  { branches := { branch_probability := clampQ 0 1 0 },
    leaves := { density := clampQ 0 1 0 },
    canvas_width := clampZ 16 512 16, canvas_height := clampZ 16 512 16,
    random_seed := 0 }

/-- C9 counterexample: with zero seeds each generate call draws a fresh seed
from the device, so the second element of generate_batch [P, P] reports seed
9 while an individual generate P call from the same starting state reports
seed 5: the batch element differs from the individual call. -/
theorem C9_batch_zero_seed_counterexample :
    ((generate_batch envZero [pZeroSeed, pZeroSeed] genStateDev).1.getD 1
        (PixelBuffer.mk0 0 0, dummyMetadata)).2.random_seed = 9 ∧
    (generate envZero pZeroSeed genStateDev).1.2.random_seed = 5 ∧
    ((generate_batch envZero [pZeroSeed, pZeroSeed] genStateDev).1.getD 1
        (PixelBuffer.mk0 0 0, dummyMetadata)).2.random_seed ≠
      (generate envZero pZeroSeed genStateDev).1.2.random_seed := by
  decide

end PixelTree
